import Mathlib

/-!
Verification of the neural style transfer program `neural_style.py`
(repository `inordirection/style-transfer`, a modification of
`cysmith/neural-style-tf`).

The program's numeric core is embedded shallowly: activation tensors of
shape `(1, h, w, d)` become functions `Fin 1 → Fin h → Fin w → Fin d → ℝ`,
TensorFlow reductions become `Finset` sums, and Python control flow becomes
structural recursion.  Machine floating point is modelled by the reals.
-/

namespace NeuralStyle

/-- An activation tensor of shape `(1, h, w, d)`, as produced by a VGG19
layer: batch dimension 1, spatial dimensions `h × w`, depth `d`. -/
abbrev Act (h w d : ℕ) : Type := Fin 1 → Fin h → Fin w → Fin d → ℝ

/-- Sum of a function over every element of a `(1, h, w, d)` tensor,
modelling `tf.reduce_sum`. -/
def reduce_sum (h w d : ℕ) (f : Fin 1 → Fin h → Fin w → Fin d → ℝ) : ℝ :=
  ∑ b : Fin 1, ∑ i : Fin h, ∑ j : Fin w, ∑ c : Fin d, f b i j c

/-- `content_layer_loss(p, x)` from `neural_style.py` (lines 257-263):
`M = h*w`, `N = d`, `K = 1. / (2. * N**0.5 * M**0.5)`, and the loss is
`K * tf.reduce_sum(tf.pow((x - p), 2))`.  The Python `**0.5` is real
exponentiation, modelled by `Real.rpow`. -/
noncomputable def content_layer_loss (h w d : ℕ) (p x : Act h w d) : ℝ :=
  let M : ℕ := h * w
  let N : ℕ := d
  let K : ℝ := 1 / (2 * (N : ℝ) ^ (0.5 : ℝ) * (M : ℝ) ^ (0.5 : ℝ))
  K * reduce_sum h w d (fun b i j c => (x b i j c - p b i j c) ^ 2)

/-- The content-loss formula as the specification states it:
`(1 / (2·sqrt(d)·sqrt(h·w))) · sum((X - P)^2)` over all elements. -/
noncomputable def content_layer_loss_spec (h w d : ℕ) (p x : Act h w d) : ℝ :=
  (1 / (2 * Real.sqrt (d : ℝ) * Real.sqrt ((h : ℝ) * (w : ℝ)))) *
    reduce_sum h w d (fun b i j c => (x b i j c - p b i j c) ^ 2)

/-- `tf.reshape(x, (area, depth))` applied to a `(1, h, w, d)` tensor with
`area = h*w`: row-major flattening of the two spatial dimensions. -/
def reshape_act (h w d : ℕ) (x : Act h w d) : Fin (h * w) → Fin d → ℝ :=
  fun k c => x 0 k.divNat k.modNat c

/-- `gram_matrix(x, area, depth)` from `neural_style.py` (lines 274-277):
`F = tf.reshape(x, (area, depth))`, `G = tf.matmul(tf.transpose(F), F)`,
so `G[i][j] = ∑ k, F[k][i] * F[k][j]`, a `depth × depth` matrix. -/
def gram_matrix (area depth : ℕ) (F : Fin area → Fin depth → ℝ) :
    Fin depth → Fin depth → ℝ :=
  fun i j => ∑ k : Fin area, F k i * F k j

/-- The Gram matrix of a `(1, h, w, d)` activation, as `style_layer_loss`
computes it: `gram_matrix(x, M, N)` with `M = h*w`, `N = d`. -/
def layer_gram (h w d : ℕ) (x : Act h w d) : Fin d → Fin d → ℝ :=
  gram_matrix (h * w) d (reshape_act h w d x)

/-- `style_layer_loss(a, x)` from `neural_style.py` (lines 265-272):
`A = gram_matrix(a, M, N)`, `G = gram_matrix(x, M, N)`, and the loss is
`(1./(4 * N**2 * M**2)) * tf.reduce_sum(tf.pow((G - A), 2))`. -/
noncomputable def style_layer_loss (h w d : ℕ) (a x : Act h w d) : ℝ :=
  let M : ℕ := h * w
  let N : ℕ := d
  let A := layer_gram h w d a
  let G := layer_gram h w d x
  (1 / (4 * (N : ℝ) ^ 2 * (M : ℝ) ^ 2)) *
    ∑ i : Fin d, ∑ j : Fin d, (G i j - A i j) ^ 2

/-- `normalize(weights)` from `neural_style.py` (lines 354-358):
`denom = sum(weights)`; if `denom > 0` return `[i / denom for i in weights]`,
else return `[0.] * len(weights)`. -/
noncomputable def normalize (weights : List ℝ) : List ℝ :=
  let denom := weights.sum
  if denom > 0 then weights.map (fun i => i / denom)
  else List.replicate weights.length 0

/-! ### Helper lemmas for the loss functions -/

lemma list_sum_map_div (l : List ℝ) (s : ℝ) :
    (l.map (fun i => i / s)).sum = l.sum / s := by
  induction l with
  | nil => simp
  | cons a t ih => simp [ih, add_div]

lemma fin_sum_eq_zero {n : ℕ} (hn : n = 0) (f : Fin n → ℝ) : ∑ k, f k = 0 := by
  haveI : IsEmpty (Fin n) := ⟨fun k => absurd k.isLt (by omega)⟩
  rw [Finset.univ_eq_empty, Finset.sum_empty]

lemma sum_eq_zero_of_nonneg_forall {α : Type} [Fintype α] {f : α → ℝ}
    (hnn : ∀ a, 0 ≤ f a) (h0 : ∑ a, f a = 0) (a : α) : f a = 0 :=
  (Finset.sum_eq_zero_iff_of_nonneg fun a _ => hnn a).mp h0 a (Finset.mem_univ a)

lemma reduce_sum_nonneg {h w d : ℕ} {f : Fin 1 → Fin h → Fin w → Fin d → ℝ}
    (hf : ∀ b i j c, 0 ≤ f b i j c) : 0 ≤ reduce_sum h w d f := by
  unfold reduce_sum
  exact Finset.sum_nonneg fun b _ => Finset.sum_nonneg fun i _ =>
    Finset.sum_nonneg fun j _ => Finset.sum_nonneg fun c _ => hf b i j c

lemma reduce_sum_sq_eq_zero_iff {h w d : ℕ} (g : Fin 1 → Fin h → Fin w → Fin d → ℝ) :
    reduce_sum h w d (fun b i j c => g b i j c ^ 2) = 0 ↔ ∀ b i j c, g b i j c = 0 := by
  constructor
  · intro h0 b i j c
    unfold reduce_sum at h0
    have h1 := sum_eq_zero_of_nonneg_forall
      (f := fun b => ∑ i, ∑ j, ∑ c, g b i j c ^ 2)
      (fun b => Finset.sum_nonneg fun i _ => Finset.sum_nonneg fun j _ =>
        Finset.sum_nonneg fun c _ => sq_nonneg _) h0 b
    have h2 := sum_eq_zero_of_nonneg_forall
      (f := fun i => ∑ j, ∑ c, g b i j c ^ 2)
      (fun i => Finset.sum_nonneg fun j _ => Finset.sum_nonneg fun c _ => sq_nonneg _) h1 i
    have h3 := sum_eq_zero_of_nonneg_forall
      (f := fun j => ∑ c, g b i j c ^ 2)
      (fun j => Finset.sum_nonneg fun c _ => sq_nonneg _) h2 j
    have h4 := sum_eq_zero_of_nonneg_forall (f := fun c => g b i j c ^ 2)
      (fun c => sq_nonneg _) h3 c
    exact (pow_eq_zero_iff (by norm_num : (2 : ℕ) ≠ 0)).mp h4
  · intro hg
    unfold reduce_sum
    simp [hg]

lemma act_eq_of_dim_zero {h w d : ℕ} (hz : h * w * d = 0) (u v : Act h w d) :
    u = v := by
  funext b i j c
  rcases Nat.mul_eq_zero.mp hz with hz2 | hd
  · rcases Nat.mul_eq_zero.mp hz2 with hh | hw
    · subst hh; exact i.elim0
    · subst hw; exact j.elim0
  · subst hd; exact c.elim0

lemma reduce_sum_dim_zero {h w d : ℕ} (hz : h * w * d = 0)
    (f : Fin 1 → Fin h → Fin w → Fin d → ℝ) : reduce_sum h w d f = 0 := by
  unfold reduce_sum
  rcases Nat.mul_eq_zero.mp hz with hz2 | hd
  · rcases Nat.mul_eq_zero.mp hz2 with hh | hw
    · subst hh; simp
    · subst hw; simp
  · subst hd; simp

lemma content_layer_loss_eq_zero_iff (h w d : ℕ) (p x : Act h w d) :
    content_layer_loss h w d p x = 0 ↔ x = p := by
  simp only [content_layer_loss]
  by_cases hz : h * w * d = 0
  · constructor
    · intro _
      exact act_eq_of_dim_zero hz x p
    · intro _
      rw [reduce_sum_dim_zero hz, mul_zero]
  · have hd : 0 < d := Nat.pos_of_ne_zero fun h0 => hz (by simp [h0])
    have hhw : 0 < h * w := by
      rcases Nat.eq_zero_or_pos (h * w) with h0 | h1
      · exact absurd (by simp [h0]) hz
      · exact h1
    have hK : (0 : ℝ) < 1 / (2 * (d : ℝ) ^ (0.5 : ℝ) * ((h * w : ℕ) : ℝ) ^ (0.5 : ℝ)) := by
      apply div_pos one_pos
      have h1 : (0 : ℝ) < (d : ℝ) ^ (0.5 : ℝ) :=
        Real.rpow_pos_of_pos (by exact_mod_cast hd) _
      have h2 : (0 : ℝ) < ((h * w : ℕ) : ℝ) ^ (0.5 : ℝ) :=
        Real.rpow_pos_of_pos (by exact_mod_cast hhw) _
      nlinarith
    constructor
    · intro h0
      rcases mul_eq_zero.mp h0 with hK0 | hS0
      · exact absurd hK0 hK.ne'
      · funext b i j c
        exact sub_eq_zero.mp ((reduce_sum_sq_eq_zero_iff
          (fun b i j c => x b i j c - p b i j c)).mp hS0 b i j c)
    · intro hxp
      subst hxp
      have : reduce_sum h w d (fun b i j c => (x b i j c - x b i j c) ^ 2) = 0 := by
        unfold reduce_sum; simp
      rw [this, mul_zero]

lemma content_layer_loss_nonneg (h w d : ℕ) (p x : Act h w d) :
    0 ≤ content_layer_loss h w d p x := by
  simp only [content_layer_loss]
  apply mul_nonneg
  · apply div_nonneg zero_le_one
    have h1 : (0 : ℝ) ≤ (d : ℝ) ^ (0.5 : ℝ) := Real.rpow_nonneg (Nat.cast_nonneg d) _
    have h2 : (0 : ℝ) ≤ ((h * w : ℕ) : ℝ) ^ (0.5 : ℝ) := Real.rpow_nonneg (Nat.cast_nonneg _) _
    nlinarith
  · exact reduce_sum_nonneg fun b i j c => sq_nonneg _

lemma layer_gram_dim_zero {h w d : ℕ} (hw0 : h * w = 0) (u : Act h w d) :
    layer_gram h w d u = fun _ _ => 0 := by
  funext i j
  exact fin_sum_eq_zero hw0 _

lemma style_layer_loss_eq_zero_iff (h w d : ℕ) (a y : Act h w d) :
    style_layer_loss h w d a y = 0 ↔ layer_gram h w d a = layer_gram h w d y := by
  simp only [style_layer_loss]
  rcases Nat.eq_zero_or_pos d with hd0 | hd
  · subst hd0
    constructor
    · intro _
      funext i j
      exact i.elim0
    · intro _
      simp
  · rcases Nat.eq_zero_or_pos (h * w) with hw0 | hhw
    · constructor
      · intro _
        rw [layer_gram_dim_zero hw0 a, layer_gram_dim_zero hw0 y]
      · intro _
        rw [hw0]
        norm_num
    · have hc : (0 : ℝ) < 1 / (4 * (d : ℝ) ^ 2 * ((h * w : ℕ) : ℝ) ^ 2) := by
        apply div_pos one_pos
        have h1 : (0 : ℝ) < (d : ℝ) := by exact_mod_cast hd
        have h2 : (0 : ℝ) < ((h * w : ℕ) : ℝ) := by exact_mod_cast hhw
        positivity
      constructor
      · intro h0
        rcases mul_eq_zero.mp h0 with hc0 | hS0
        · exact absurd hc0 hc.ne'
        · funext i j
          have h1 := sum_eq_zero_of_nonneg_forall
            (f := fun i => ∑ j, (layer_gram h w d y i j - layer_gram h w d a i j) ^ 2)
            (fun i => Finset.sum_nonneg fun j _ => sq_nonneg _) hS0 i
          have h2 := sum_eq_zero_of_nonneg_forall
            (f := fun j => (layer_gram h w d y i j - layer_gram h w d a i j) ^ 2)
            (fun j => sq_nonneg _) h1 j
          exact (sub_eq_zero.mp ((pow_eq_zero_iff (by norm_num : (2 : ℕ) ≠ 0)).mp h2)).symm
      · intro hga
        rw [hga]
        simp

lemma style_layer_loss_nonneg (h w d : ℕ) (a y : Act h w d) :
    0 ≤ style_layer_loss h w d a y := by
  simp only [style_layer_loss]
  apply mul_nonneg
  · positivity
  · exact Finset.sum_nonneg fun i _ => Finset.sum_nonneg fun j _ => sq_nonneg _

/-! ### Claim theorems: loss functions -/

/-- C1: for every reference activation `P` and current activation `X` of shape
`(1,h,w,d)`, the per-layer content loss computed by `content_layer_loss` equals
`(1 / (2·sqrt(d)·sqrt(h·w)))` times the sum over all elements of `(X - P)^2`. -/
theorem content_loss_matches_spec_formula (h w d : ℕ) (p x : Act h w d) :
    content_layer_loss h w d p x = content_layer_loss_spec h w d p x := by
  simp only [content_layer_loss, content_layer_loss_spec]
  have hd : (d : ℝ) ^ (0.5 : ℝ) = Real.sqrt (d : ℝ) := by
    rw [Real.sqrt_eq_rpow]
    norm_num
  have hm : ((h * w : ℕ) : ℝ) ^ (0.5 : ℝ) = Real.sqrt ((h : ℝ) * (w : ℝ)) := by
    rw [Real.sqrt_eq_rpow]
    push_cast
    norm_num
  rw [hd, hm]

/-- C2: `normalize` returns a list of the same length; when the input sum is
positive the output sums to `1`, and when the input sum is `≤ 0` the output is
the all-zero list of the same length. -/
theorem normalize_normalizes (ws : List ℝ) :
    (normalize ws).length = ws.length ∧
    (0 < ws.sum → (normalize ws).sum = 1) ∧
    (ws.sum ≤ 0 → normalize ws = List.replicate ws.length 0) := by
  unfold normalize
  by_cases hpos : ws.sum > 0
  · rw [if_pos hpos]
    refine ⟨ws.length_map _, fun _ => ?_, fun hle => absurd hpos (not_lt.mpr hle)⟩
    rw [list_sum_map_div, div_self (ne_of_gt hpos)]
  · rw [if_neg hpos]
    exact ⟨List.length_replicate _ _, fun hlt => absurd hlt hpos, fun _ => rfl⟩

/-- Witness for C2: at the concrete inputs `[2, 3]` (positive sum) and
`[-1, -2]` (nonpositive sum) the normalization behaves as stated. -/
theorem normalize_normalizes_witness :
    ((0 : ℝ) < ([2, 3] : List ℝ).sum ∧ (normalize [2, 3]).sum = 1) ∧
    (([-1, -2] : List ℝ).sum ≤ 0 ∧ normalize [-1, -2] = List.replicate 2 0) := by
  constructor
  · exact ⟨by norm_num, (normalize_normalizes [2, 3]).2.1 (by norm_num)⟩
  · exact ⟨by norm_num, by simpa using (normalize_normalizes [-1, -2]).2.2 (by norm_num)⟩

/-- C3: the per-layer content loss vanishes exactly when the current activation
equals the reference activation elementwise, the per-layer style loss vanishes
exactly when the Gram matrices of the two activations are equal, and both
losses are non-negative for every input. -/
theorem losses_zero_iff_and_nonneg (h w d : ℕ) (p x a y : Act h w d) :
    (content_layer_loss h w d p x = 0 ↔ x = p) ∧
    (style_layer_loss h w d a y = 0 ↔ layer_gram h w d a = layer_gram h w d y) ∧
    0 ≤ content_layer_loss h w d p x ∧ 0 ≤ style_layer_loss h w d a y :=
  ⟨content_layer_loss_eq_zero_iff h w d p x, style_layer_loss_eq_zero_iff h w d a y,
   content_layer_loss_nonneg h w d p x, style_layer_loss_nonneg h w d a y⟩

/-! ### The VGG19 network built by `build_model` -/

/-- One layer of the network as `build_model` constructs it: a convolution
layer with its index into the external weight store, a relu layer with its
bias index, or an average-pooling layer. -/
inductive VggLayer where
  | conv (name : String) (wIdx : ℕ)
  | relu (name : String) (bIdx : ℕ)
  | pool (name : String)
deriving DecidableEq

/-- The layer sequence constructed by `build_model` (`neural_style.py`
lines 148-222), with the exact weight-store index passed to `get_weights` /
`get_bias` for each layer. -/
def build_model : List VggLayer := [
  .conv "conv1_1" 0, .relu "relu1_1" 0,
  .conv "conv1_2" 2, .relu "relu1_2" 2,
  .pool "pool1",
  .conv "conv2_1" 5, .relu "relu2_1" 5,
  .conv "conv2_2" 7, .relu "relu2_2" 7,
  .pool "pool2",
  .conv "conv3_1" 10, .relu "relu3_1" 10,
  .conv "conv3_2" 12, .relu "relu3_2" 12,
  .conv "conv3_3" 14, .relu "relu3_3" 14,
  .conv "conv3_4" 16, .relu "relu3_4" 16,
  .pool "pool3",
  .conv "conv4_1" 19, .relu "relu4_1" 19,
  .conv "conv4_2" 21, .relu "relu4_2" 21,
  .conv "conv4_3" 23, .relu "relu4_3" 23,
  .conv "conv4_4" 25, .relu "relu4_4" 25,
  .pool "pool4",
  .conv "conv5_1" 28, .relu "relu5_1" 28,
  .conv "conv5_2" 30, .relu "relu5_2" 30,
  .conv "conv5_3" 32, .relu "relu5_3" 32,
  .conv "conv5_4" 34, .relu "relu5_4" 34,
  .pool "pool5" ]

/-- The kind of a layer, forgetting names and indices. -/
inductive LayerTag where
  | conv | relu | pool
deriving DecidableEq

def layerTag : VggLayer → LayerTag
  | .conv _ _ => .conv
  | .relu _ _ => .relu
  | .pool _ => .pool

/-- The shape of one VGG block with `n` convolution layers: `n` interleaved
conv+relu pairs followed by one pooling layer. -/
def blockPattern (n : ℕ) : List LayerTag :=
  (List.replicate n [LayerTag.conv, LayerTag.relu]).flatten ++ [LayerTag.pool]

/-- Weight-store indices of the convolution layers, in network order. -/
def convWeightIndices : List ℕ :=
  build_model.filterMap fun l => match l with
    | .conv _ i => some i
    | _ => none

def convBlocksAux : List VggLayer → List (List ℕ) × List ℕ
  | [] => ([], [])
  | l :: rest =>
    let (blocks, cur) := convBlocksAux rest
    match l with
    | .conv _ i => (blocks, i :: cur)
    | .relu _ _ => (blocks, cur)
    | .pool _ => (cur :: blocks, [])

/-- The convolution weight-store indices grouped into the blocks delimited by
the pooling layers (groups containing no convolution are dropped). -/
def convIndexBlocks : List (List ℕ) :=
  let (blocks, cur) := convBlocksAux build_model
  (cur :: blocks).filter (fun l => l ≠ [])

/-- C4: the network built by `build_model` has 16 conv+relu layers in 5 blocks
of sizes `(2,2,4,4,4)`, each block followed by one pooling layer; the
weight-store index increases by 2 between consecutive convolutions inside a
block and by 3 across a pooling boundary, giving the index sequence
`0,2, 5,7, 10,12,14,16, 19,21,23,25, 28,30,32,34`. -/
theorem build_model_vgg19_topology :
    build_model.map layerTag = ([2, 2, 4, 4, 4].map blockPattern).flatten ∧
    (build_model.filter (fun l => layerTag l = LayerTag.conv)).length = 16 ∧
    convIndexBlocks = [[0, 2], [5, 7], [10, 12, 14, 16], [19, 21, 23, 25], [28, 30, 32, 34]] ∧
    convWeightIndices = convIndexBlocks.flatten ∧
    convWeightIndices = [0, 2, 5, 7, 10, 12, 14, 16, 19, 21, 23, 25, 28, 30, 32, 34] ∧
    (∀ blk ∈ convIndexBlocks, ∀ q ∈ blk.zip blk.tail, q.2 = q.1 + 2) ∧
    (∀ q ∈ convIndexBlocks.zip convIndexBlocks.tail,
      q.2.head? = q.1.getLast?.map (· + 3)) := by
  refine ⟨by decide, by decide, by decide, by decide, by decide, by decide, by decide⟩

/-! ### Loss aggregation over configured layer lists -/

/-- `sum_content_losses(sess, net, content_img)` (lines 295-304), with the
session-evaluated per-layer loss abstracted as `lossOf`: the loop runs over
`zip(args.content_layers, args.content_layer_weights)`, accumulating
`content_layer_loss(p, x) * weight`, and the total is divided by
`float(len(args.content_layers))`. -/
noncomputable def sum_content_losses (content_layers : List String)
    (content_layer_weights : List ℝ) (lossOf : String → ℝ) : ℝ :=
  ((content_layers.zip content_layer_weights).foldl
    (fun acc lw => acc + lossOf lw.1 * lw.2) 0) / (content_layers.length : ℝ)

/-- `sum_style_losses(sess, net, style_imgs)` (lines 279-293), with the
session-evaluated per-image per-layer loss abstracted as `lossOf`: the outer
loop runs over `zip(style_imgs, args.style_imgs_weights)`, the inner loop
over `zip(args.style_layers, args.style_layer_weights)`; the inner total is
divided by `len(args.style_layers)` and the outer by `len(style_imgs)`. -/
noncomputable def sum_style_losses (style_imgs : List String)
    (style_imgs_weights : List ℝ) (style_layers : List String)
    (style_layer_weights : List ℝ) (lossOf : String → String → ℝ) : ℝ :=
  ((style_imgs.zip style_imgs_weights).foldl
    (fun total iw =>
      let style_loss := ((style_layers.zip style_layer_weights).foldl
        (fun acc lw => acc + lossOf iw.1 lw.1 * lw.2) 0) / (style_layers.length : ℝ)
      total + style_loss * iw.2) 0) / (style_imgs.length : ℝ)

/-- C6: mismatched layer/weight list lengths are not rejected anywhere — the
aggregation loops pair the lists with `zip`, which silently drops the excess.
With two content layers `["conv4_2", "conv5_2"]` but a single weight `[1]`,
the content aggregate is computed from `conv4_2` alone (though still divided
by 2, the full layer count); similarly one style weight for two style layers
uses only the first layer.  No error value exists on this path. -/
theorem mismatched_weight_lists_silently_truncated
    (lossOf : String → ℝ) (slossOf : String → String → ℝ) :
    sum_content_losses ["conv4_2", "conv5_2"] [1] lossOf
      = (lossOf "conv4_2" * 1) / 2 ∧
    sum_style_losses ["s.jpg"] [1] ["relu1_1", "relu2_1"] [(0.5 : ℝ)] slossOf
      = ((slossOf "s.jpg" "relu1_1" * 0.5) / 2 * 1) / 1 := by
  constructor
  · simp [sum_content_losses]
  · simp [sum_style_losses]

/-! ### The Adam optimization loop and its image writes -/

/-- One image-write event of a render: an intermediate checkpoint written by
the optimizer loop (with its block and iteration counters), or the final
output image written by `write_image_output`. -/
inductive WriteEvent where
  | checkpoint (block iteration : ℕ)
  | finalOutput
deriving DecidableEq

/-- The intermediate checkpoint writes performed by `minimize_with_adam`
(lines 421-441): for each `block < args.blocks` and each
`iteration < args.max_iterations`, in loop order, the current image is
written exactly when `iteration % args.print_iterations == 0 and
args.verbose`. -/
def minimize_with_adam_checkpoints (verbose : Bool)
    (blocks max_iterations print_iterations : ℕ) : List (ℕ × ℕ) :=
  (List.range blocks).flatMap fun block =>
    (List.range max_iterations).filterMap fun iteration =>
      if iteration % print_iterations = 0 ∧ verbose = true then
        some (block, iteration)
      else none

/-- The image writes of a whole Adam render in `stylize` (lines 398-405):
the checkpoints of `minimize_with_adam`, then the one final output image
written by `write_image_output` (line 487). -/
def adam_run_writes (verbose : Bool)
    (blocks max_iterations print_iterations : ℕ) : List WriteEvent :=
  (minimize_with_adam_checkpoints verbose blocks max_iterations print_iterations).map
    (fun bi => WriteEvent.checkpoint bi.1 bi.2) ++ [WriteEvent.finalOutput]

/-- C7 counterexample: with `--verbose` absent (the default), an Adam run of
2 blocks × 10 iterations with print interval 5 writes no intermediate
checkpoints at all rather than the claimed 4, because line 434 gates the
checkpoint on `args.verbose`. -/
theorem adam_nonverbose_run_writes_no_checkpoints :
    (minimize_with_adam_checkpoints false 2 10 5).length = 0 ∧
    ¬ (minimize_with_adam_checkpoints false 2 10 5).length = 4 := by
  refine ⟨by decide, by decide⟩

/-- C7 (amended): in verbose mode, an Adam run of 2 blocks × 10 iterations
with print interval 5 writes exactly the 4 intermediate checkpoints, at
iterations 0 and 5 of each of the two blocks, followed by the single final
output image. -/
theorem adam_verbose_run_writes :
    adam_run_writes true 2 10 5 =
      [WriteEvent.checkpoint 0 0, WriteEvent.checkpoint 0 5,
       WriteEvent.checkpoint 1 0, WriteEvent.checkpoint 1 5,
       WriteEvent.finalOutput] := by
  decide

/-! ### Output paths: `get_image_savename` and `write_image_output` -/

/-- The arguments read by `get_image_savename`.  The four `_str` fields stand
for the `str(...)` renderings of the Adam hyperparameters interpolated into
the directory name; source line 464 is syntactically malformed (it is missing
two `+` operators between the string pieces) and is modelled as the evident
concatenation.  They are only reached on the `adam` branch. -/
structure SaveArgs where
  img_name : Option String
  style_imgs : List String
  content_img : String
  img_output_dir : String
  max_size : ℕ
  optimizer : String
  lr_str : String
  beta1_str : String
  beta2_str : String
  eps_str : String
  blocks : ℕ
  max_iterations : ℕ

/-- `os.path.join(a, b)` for a non-absolute second component. -/
def pathJoin (a b : String) : String := a ++ "/" ++ b

/-- Python `s[:-4]`: drop the last four characters (the filename suffix). -/
def dropLast4 (s : String) : String := s.take (s.length - 4)

/-- `get_image_savename(block, iteration)` (lines 454-481): builds the output
directory name from the configuration, appends the `iters` component when
`block < args.blocks or iteration < args.max_iterations` (line 472, commented
"store intermediary images in 'iters' subfolder"), and returns the directory
together with the image path inside it.  The `maybe_make_directory` side
effect is external and not modelled. -/
def get_image_savename (args : SaveArgs) (block iteration : ℕ) : String × String :=
  let out_dir :=
    match args.img_name with
    | some nm => pathJoin args.img_output_dir nm
    | none =>
      let out_subdir := dropLast4 args.content_img ++ "." ++
        dropLast4 (args.style_imgs.headD "")
      pathJoin args.img_output_dir out_subdir
  let out_dir := out_dir ++ toString args.max_size
  let out_dir := out_dir ++
    (if args.optimizer = "adam" then
      "A" ++ "(" ++ args.lr_str ++ "," ++ args.beta1_str ++ "," ++
        args.beta2_str ++ "," ++ args.eps_str ++ ")"
    else "LBFGS")
  let out_dir := if args.blocks ≠ 1 then out_dir ++ toString args.blocks ++ "x" else out_dir
  let out_dir := out_dir ++ toString args.max_iterations
  let out_dir := if block < args.blocks ∨ iteration < args.max_iterations then
      pathJoin out_dir "iters"
    else out_dir
  let img_path :=
    match args.img_name with
    | some nm => pathJoin out_dir nm
    | none => pathJoin out_dir (toString block ++ "." ++ toString iteration ++ ".png")
  (out_dir, img_path)

/-- The path at which `write_image_output` (lines 483-487) writes the final
stylized image: `get_image_savename(args.blocks, 0)`. -/
def final_image_path (args : SaveArgs) : String :=
  (get_image_savename args args.blocks 0).2

/-- A concrete default render configuration: content `lion.jpg`, one style
`starry-night.jpg`, and the `parse_args` defaults — output directory
`./image_output`, max size 512, optimizer `lbfgs`, 1 block, 1000 iterations.
The Adam hyperparameter strings are never reached on this branch. -/
def sampleArgs : SaveArgs where
  img_name := none
  style_imgs := ["starry-night.jpg"]
  content_img := "lion.jpg"
  img_output_dir := "./image_output"
  max_size := 512
  optimizer := "lbfgs"
  lr_str := ""
  beta1_str := ""
  beta2_str := ""
  eps_str := ""
  blocks := 1
  max_iterations := 1000

/-- C5: at the default configuration the final write, computed as
`get_image_savename(args.blocks, 0)`, satisfies `0 < max_iterations`, so the
`or` on line 472 is true and the final image path is placed under the `iters`
subdirectory — the component reserved for intermediate checkpoints. -/
theorem final_write_lands_in_iters :
    (get_image_savename sampleArgs sampleArgs.blocks 0).1
        = "./image_output/lion.starry-night512LBFGS1000/iters" ∧
    final_image_path sampleArgs
        = "./image_output/lion.starry-night512LBFGS1000/iters/1.0.png" := by
  constructor <;> rfl

/-! ### Argument registration: the duplicated `--beta1` declaration -/

/-- Model of Python `argparse.ArgumentParser.add_argument` restricted to what
the claim needs: with the default conflict handler, registering an option
string that is already registered raises `ArgumentError` ("conflicting option
string"); otherwise the option is recorded. -/
def add_argument (opts : List String) (name : String) : Except String (List String) :=
  if name ∈ opts then Except.error ("conflicting option string: " ++ name)
  else Except.ok (opts ++ [name])

/-- The option strings declared by `parse_args` (lines 16-131) in source
order.  `--beta1` appears twice (lines 106 and 110); no `--beta2` is ever
declared even though `get_optimizer` (line 451) reads `args.beta2`. -/
def parse_args_options : List String :=
  ["--verbose", "--img_name", "--style_imgs", "--style_imgs_weights",
   "--content_img", "--style_imgs_dir", "--content_img_dir", "--max_size",
   "--content_weight", "--style_weight", "--tv_weight", "--content_layers",
   "--style_layers", "--content_layer_weights", "--style_layer_weights",
   "--seed", "--model_weights", "--device", "--img_output_dir", "--optimizer",
   "--learning_rate", "--beta1", "--beta1", "--epsilon", "--blocks",
   "--max_iterations", "--print_iterations"]

/-- Executing the `add_argument` declarations of `parse_args` in order,
stopping at the first conflict, as the Python interpreter does. -/
def parse_args_registration : Except String (List String) :=
  parse_args_options.foldlM add_argument []

lemma parse_args_registration_eq :
    parse_args_registration = Except.error "conflicting option string: --beta1" := by
  rfl

/-- C9 counterexample: argument registration does not complete — the second
`--beta1` declaration conflicts with the first, so `parse_args` raises before
any default (0.9 or 0.999) is recorded and the optimizer is never built. -/
theorem parse_args_never_completes :
    ¬ ∃ opts, parse_args_registration = Except.ok opts := by
  rintro ⟨opts, hok⟩
  rw [parse_args_registration_eq] at hok
  exact Except.noConfusion hok

/-- C9 (amended): executing the parameter declarations raises a
conflicting-option error on the duplicated `--beta1`, so a run with no
momentum-decay flag never reaches optimizer construction. -/
theorem parse_args_beta1_conflict :
    parse_args_registration = Except.error "conflicting option string: --beta1" :=
  parse_args_registration_eq

/-! ### Pixel preprocessing and postprocessing -/

/-- The fixed per-channel means `[123.68, 116.779, 103.939]` subtracted by
`preprocess` (line 327) and added back by `postprocess` (line 332). -/
noncomputable def channelMean : Fin 3 → ℝ := ![123.68, 116.779, 103.939]

/-- Reversal of the 3-element channel axis: `img[..., ::-1]`. -/
def revChannel (c : Fin 3) : Fin 3 := ⟨2 - c.val, by omega⟩

/-- `preprocess(img)` (lines 321-328): copy, reverse the channel axis
(bgr → rgb), add the batch axis, subtract the per-channel mean. -/
noncomputable def preprocess (h w : ℕ) (img : Fin h → Fin w → Fin 3 → ℝ) :
    Fin 1 → Fin h → Fin w → Fin 3 → ℝ :=
  fun _ i j c => img i j (revChannel c) - channelMean c

/-- `np.clip(v, 0, 255)` followed by `astype('uint8')`: clamp to `[0, 255]`,
then truncate towards zero — on the clamped non-negative value this is the
floor. -/
noncomputable def clipToU8 (v : ℝ) : ℕ := (⌊min (max v 0) 255⌋).toNat

/-- `postprocess(img)` (lines 330-338): copy, add the per-channel mean back,
drop the batch axis, clip to `[0, 255]` and cast to `uint8`, reverse the
channel axis (rgb → bgr). -/
noncomputable def postprocess (h w : ℕ) (img : Fin 1 → Fin h → Fin w → Fin 3 → ℝ) :
    Fin h → Fin w → Fin 3 → ℕ :=
  fun i j c => clipToU8 (img 0 i j (revChannel c) + channelMean (revChannel c))

lemma revChannel_involutive (c : Fin 3) : revChannel (revChannel c) = c := by
  apply Fin.ext
  have hc := c.isLt
  simp only [revChannel]
  omega

/-- C8: for an image with all values in `[0, 255]`, postprocessing the
preprocessed image returns the original value up to uint8 rounding: the mean
subtraction is exactly undone, the channel reversal composed with itself is
the identity, and the only change is the truncation to an integer, which
moves each value by less than 1. -/
theorem preprocess_postprocess_roundtrip (h w : ℕ) (img : Fin h → Fin w → Fin 3 → ℝ)
    (hrange : ∀ i j c, 0 ≤ img i j c ∧ img i j c ≤ 255)
    (i : Fin h) (j : Fin w) (c : Fin 3) :
    postprocess h w (preprocess h w img) i j c = (⌊img i j c⌋).toNat ∧
    |(((⌊img i j c⌋).toNat : ℝ)) - img i j c| < 1 ∧
    revChannel (revChannel c) = c := by
  obtain ⟨h0, h255⟩ := hrange i j c
  have hfloor0 : (0 : ℤ) ≤ ⌊img i j c⌋ := Int.floor_nonneg.mpr h0
  have hcast : (((⌊img i j c⌋).toNat : ℝ)) = ((⌊img i j c⌋ : ℤ) : ℝ) := by
    exact_mod_cast Int.toNat_of_nonneg hfloor0
  refine ⟨?_, ?_, revChannel_involutive c⟩
  · simp only [postprocess, preprocess, clipToU8, revChannel_involutive]
    have hcancel : img i j c - channelMean (revChannel c) + channelMean (revChannel c)
        = img i j c := by ring
    rw [hcancel, max_eq_left h0, min_eq_left h255]
  · rw [hcast]
    have hle := Int.floor_le (img i j c)
    have hlt := Int.lt_floor_add_one (img i j c)
    rw [abs_lt]
    constructor <;> [linarith; linarith]

/-- Witness for C8 at a concrete in-range image: the constant image with
value 200 round-trips to exactly 200. -/
theorem preprocess_postprocess_roundtrip_witness :
    (∀ (i j : Fin 1) (c : Fin 3),
        0 ≤ (fun (_ : Fin 1) (_ : Fin 1) (_ : Fin 3) => (200 : ℝ)) i j c ∧
        (fun (_ : Fin 1) (_ : Fin 1) (_ : Fin 3) => (200 : ℝ)) i j c ≤ 255) ∧
    postprocess 1 1 (preprocess 1 1 (fun _ _ _ => (200 : ℝ))) 0 0 0 = 200 := by
  have hrange : ∀ (i j : Fin 1) (c : Fin 3),
      0 ≤ (fun (_ : Fin 1) (_ : Fin 1) (_ : Fin 3) => (200 : ℝ)) i j c ∧
      (fun (_ : Fin 1) (_ : Fin 1) (_ : Fin 3) => (200 : ℝ)) i j c ≤ 255 := by
    intro i j c
    norm_num
  refine ⟨hrange, ?_⟩
  have H := (preprocess_postprocess_roundtrip 1 1 (fun _ _ _ => (200 : ℝ)) hrange 0 0 0).1
  have h200 : (⌊(200 : ℝ)⌋) = 200 := by
    rw [show ((200 : ℝ)) = (((200 : ℤ) : ℝ)) by norm_num, Int.floor_intCast]
  rw [H, h200]
  rfl

/-! ### Buffer-level frame property of preprocess / postprocess -/

/-- A numpy array value: a 3-D float image, a 4-D float image (with batch
axis), or a 3-D uint8 image. -/
inductive NpVal (h w : ℕ) where
  | arr3 (a : Fin h → Fin w → Fin 3 → ℝ)
  | arr4 (a : Fin 1 → Fin h → Fin w → Fin 3 → ℝ)
  | arr3u8 (a : Fin h → Fin w → Fin 3 → ℕ)

/-- A heap of numpy buffers: ids `0, …, size-1` are live; `buf` gives each
buffer's current value. -/
structure NpHeap (h w : ℕ) where
  size : ℕ
  buf : ℕ → NpVal h w

/-- Allocate a fresh buffer (as `np.copy` and array-creating operations do)
holding value `v`; returns the new heap and the fresh id. -/
def NpHeap.alloc {h w : ℕ} (σ : NpHeap h w) (v : NpVal h w) : NpHeap h w × ℕ :=
  (⟨σ.size + 1, fun i => if i = σ.size then v else σ.buf i⟩, σ.size)

/-- Overwrite buffer `r` in place (as the `-=` / `+=` operations do, writing
through any views of `r`). -/
def NpHeap.write {h w : ℕ} (σ : NpHeap h w) (r : ℕ) (v : NpVal h w) : NpHeap h w :=
  ⟨σ.size, fun i => if i = r then v else σ.buf i⟩

/-- `preprocess` as a heap computation: `imgpre = np.copy(img)` allocates a
fresh buffer; the channel reversal and `np.newaxis` are views of that buffer,
and the in-place `-=` writes through them into it.  No operation writes to
the argument buffer. -/
noncomputable def preprocess_heap {h w : ℕ} (σ : NpHeap h w) (img : ℕ) :
    NpHeap h w × ℕ :=
  match σ.buf img with
  | .arr3 a =>
    let p := σ.alloc (.arr3 a)
    (p.1.write p.2 (.arr4 (preprocess h w a)), p.2)
  | _ => (σ, img)

/-- `postprocess` as a heap computation: `imgpost = np.copy(img)` allocates a
fresh buffer, `+=` mutates that copy in place, and `np.clip` / `astype` /
the final reversal produce a further fresh uint8 buffer, which is returned.
No operation writes to the argument buffer. -/
noncomputable def postprocess_heap {h w : ℕ} (σ : NpHeap h w) (img : ℕ) :
    NpHeap h w × ℕ :=
  match σ.buf img with
  | .arr4 a =>
    let p := σ.alloc (.arr4 a)
    let σ2 := p.1.write p.2 (.arr4 (fun b i j c => a b i j c + channelMean c))
    let q := σ2.alloc (.arr3u8 (postprocess h w a))
    (q.1, q.2)
  | _ => (σ, img)

/-- C10: `preprocess` and `postprocess` leave every live buffer — in
particular their argument — unchanged: the copy decouples all subsequent
writes from the caller's array. -/
theorem preprocess_postprocess_leave_buffers_unchanged (h w : ℕ)
    (σ : NpHeap h w) (img : ℕ) (himg : img < σ.size) :
    (preprocess_heap σ img).1.buf img = σ.buf img ∧
    (postprocess_heap σ img).1.buf img = σ.buf img := by
  constructor
  · cases hv : σ.buf img with
    | arr3 a =>
      simp only [preprocess_heap, hv, NpHeap.alloc, NpHeap.write]
      rw [if_neg (by omega), if_neg (by omega)]
    | arr4 a => simp [preprocess_heap, hv]
    | arr3u8 a => simp [preprocess_heap, hv]
  · cases hv : σ.buf img with
    | arr3 a => simp [postprocess_heap, hv]
    | arr4 a =>
      simp only [postprocess_heap, hv, NpHeap.alloc, NpHeap.write]
      rw [if_neg (by omega), if_neg (by omega), if_neg (by omega)]
    | arr3u8 a => simp [postprocess_heap, hv]

/-- Witness for C10: a one-buffer heap holding a 3-D image; both calls leave
buffer 0 with its original value. -/
theorem preprocess_postprocess_frame_witness :
    0 < (⟨1, fun _ => NpVal.arr3 fun _ _ _ => 0⟩ : NpHeap 1 1).size ∧
    (preprocess_heap (⟨1, fun _ => NpVal.arr3 fun _ _ _ => 0⟩ : NpHeap 1 1) 0).1.buf 0
      = (⟨1, fun _ => NpVal.arr3 fun _ _ _ => 0⟩ : NpHeap 1 1).buf 0 ∧
    (postprocess_heap (⟨1, fun _ => NpVal.arr3 fun _ _ _ => 0⟩ : NpHeap 1 1) 0).1.buf 0
      = (⟨1, fun _ => NpVal.arr3 fun _ _ _ => 0⟩ : NpHeap 1 1).buf 0 := by
  refine ⟨Nat.zero_lt_one, ?_, ?_⟩
  · exact (preprocess_postprocess_leave_buffers_unchanged 1 1 _ 0 Nat.zero_lt_one).1
  · exact (preprocess_postprocess_leave_buffers_unchanged 1 1 _ 0 Nat.zero_lt_one).2

end NeuralStyle
